import Mathlib

/-!
Verification development for the sports_science_dataset aggregation pipeline.

This file gives a shallow embedding of the deduplication engine
(`src/processors/deduplicator.py`), the year filter of the collectors
(`src/collectors/arxiv_collector.py`, `semantic_scholar_collector.py`) and the
retrying request wrapper (`src/collectors/base_collector.py`), together with
theorems settling the specification's testable properties.

Strings are Lean `String`s (ASCII in all concrete inputs), Python `float`
scores are rationals, Python `Optional` fields are `Option`, and Python
truthiness (`if x:`) is modelled explicitly (`none`, `""`, `0` are falsy).
-/

namespace Maromba

/-- Python truthiness of an optional string: `None` and `""` are falsy. -/
def truthyStr : Option String → Bool
  | none => false
  | some s => s ≠ ""

/-- Python truthiness of an optional int: `None` and `0` are falsy. -/
def truthyInt : Option Int → Bool
  | none => false
  | some y => y ≠ 0

/-- Python `x or 0` on an optional int. -/
def orZero : Option Int → Int
  | none => 0
  | some n => n

/-- Python word character for the `re` patterns used by the source:
alphanumeric or underscore (inputs are ASCII). -/
def isWordChar (c : Char) : Bool :=
  c.isAlphanum || c = '_'

/-- Lowercasing by characters (kernel-reducible replacement for
`String.toLower`). -/
def strLower (s : String) : String :=
  String.mk (s.data.map Char.toLower)

/-- Strip leading and trailing whitespace (Python `str.strip()`). -/
def strTrim (s : String) : String :=
  String.mk
    (((s.data.dropWhile Char.isWhitespace).reverse.dropWhile
      Char.isWhitespace).reverse)

/-- First `n` characters of a string (Python slicing `s[:n]`). -/
def strTake (s : String) (n : Nat) : String :=
  String.mk (s.data.take n)

/-- Drop the first `n` characters of a string. -/
def strDrop (s : String) (n : Nat) : String :=
  String.mk (s.data.drop n)

/-- Prefix test on character lists. -/
def charsStartWith : List Char → List Char → Bool
  | _, [] => true
  | [], _ :: _ => false
  | c :: cs, p :: ps => if c = p then charsStartWith cs ps else false

/-- Prefix test on strings (kernel-reducible `String.startsWith`). -/
def strStartsWith (s pat : String) : Bool :=
  charsStartWith s.data pat.data

/-- Substring scan (Python `pat in s`; `pat` is nonempty at all call sites). -/
def charsContain : List Char → List Char → Bool
  | _, [] => true
  | [], _ :: _ => false
  | c :: cs, p :: ps =>
    if charsStartWith (c :: cs) (p :: ps) then true
    else charsContain cs (p :: ps)

/-- Substring test on strings. -/
def containsSub (s pat : String) : Bool :=
  charsContain s.data pat.data

/-- Join strings with a separator (Python `sep.join(l)`). -/
def joinSep (sep : String) : List String → String
  | [] => ""
  | [s] => s
  | s :: t :: rest => s ++ sep ++ joinSep sep (t :: rest)

/-- Whitespace tokenizer accumulator: `cur` is the reversed current token. -/
def pySplitAux (cur : List Char) : List Char → List (List Char)
  | [] => if cur = [] then [] else [cur.reverse]
  | c :: cs =>
    if c.isWhitespace then
      if cur = [] then pySplitAux [] cs
      else cur.reverse :: pySplitAux [] cs
    else pySplitAux (c :: cur) cs

/-- Python `str.split()`: split on whitespace runs, dropping empty pieces. -/
def pySplit (s : String) : List String :=
  (pySplitAux [] s.data).map String.mk

/-- Split on a single character (Python `str.split(',')`), keeping empty
pieces. -/
def splitOnCharAux (sep : Char) (cur : List Char) :
    List Char → List (List Char)
  | [] => [cur.reverse]
  | c :: cs =>
    if c = sep then cur.reverse :: splitOnCharAux sep [] cs
    else splitOnCharAux sep (c :: cur) cs

/-- Split a string on one separator character. -/
def splitOnChar (sep : Char) (s : String) : List String :=
  (splitOnCharAux sep [] s.data).map String.mk

/-- Lexicographic comparison of char lists by code point (Python `<=` on str). -/
def lexLe : List Char → List Char → Bool
  | [], _ => true
  | _ :: _, [] => false
  | a :: as, b :: bs => if a = b then lexLe as bs else decide (a < b)

/-- String comparison by code point, as Python `sorted` uses. -/
def strLe (a b : String) : Bool :=
  lexLe a.data b.data

/-- Stable insertion into a lexicographically sorted list. -/
def sortedInsert (a : String) : List String → List String
  | [] => [a]
  | b :: bs => if strLe b a then b :: sortedInsert a bs else a :: b :: bs

/-- Python `sorted` on a list of strings (insertion sort; stable). -/
def pySorted (l : List String) : List String :=
  l.foldl (fun acc a => sortedInsert a acc) []

/-- First-occurrence deduplication, modelling iteration over a Python `set`
built from a list (order irrelevant at use sites, which sort afterwards). -/
def dedupFirst : List String → List String
  | [] => []
  | a :: as => if a ∈ as then dedupFirst as else a :: dedupFirst as

/-- Elements occurring in `l1` but not `l2`, first occurrences only. -/
def setDiff (l1 l2 : List String) : List String :=
  (dedupFirst l1).filter (fun a => ¬ a ∈ l2)

/-- Elements occurring in both lists, first occurrences only. -/
def setInter (l1 l2 : List String) : List String :=
  (dedupFirst l1).filter (fun a => a ∈ l2)

/-- Python 3 `round` to an integer: round half to even (banker's rounding). -/
def pyRound (q : ℚ) : ℤ :=
  let n : ℤ := ⌊q⌋
  let f : ℚ := q - n
  if f < 1/2 then n
  else if 1/2 < f then n + 1
  else if n % 2 = 0 then n else n + 1

/-! ### difflib.SequenceMatcher, as used by fuzzywuzzy's pure-python backend

`findLongestMatch` is the main loop of `SequenceMatcher.find_longest_match`
(no junk: `isjunk=None` and the inputs are far below the autojunk limit, so
the junk-extension steps are no-ops).  `matchingSize` sums the sizes of the
recursively found matching blocks, i.e. the `matches` total of
`get_matching_blocks`; `seqRatio` is `SequenceMatcher.ratio()`. -/

/-- Ascending positions `j` with `blo ≤ j < bhi` and `b[j] = c`. -/
def charPositions (b : List Char) (c : Char) (blo bhi : Nat) : List Nat :=
  ((List.range b.length).filter
    (fun j => blo ≤ j && j < bhi && b.getD j ' ' = c))

/-- One row step of `find_longest_match`: given the previous row `j2len` and
the current index `i`, produce the new row and updated best block. -/
def flmRow (a b : List Char) (blo bhi i : Nat)
    (j2len : List (Nat × Nat)) (best : Nat × Nat × Nat) :
    List (Nat × Nat) × (Nat × Nat × Nat) :=
  (charPositions b (a.getD i ' ') blo bhi).foldl
    (fun (st : List (Nat × Nat) × (Nat × Nat × Nat)) j =>
      let (row, bst) := st
      let k := (if j = 0 then 0 else ((j2len.lookup (j - 1)).getD 0)) + 1
      let bst' := if bst.2.2 < k then (i + 1 - k, j + 1 - k, k) else bst
      ((j, k) :: row, bst'))
    ([], best)

/-- Model of `SequenceMatcher.find_longest_match` restricted to `a[alo:ahi]`,
`b[blo:bhi]`; returns `(besti, bestj, bestsize)`. -/
def findLongestMatch (a b : List Char) (alo ahi blo bhi : Nat) :
    Nat × Nat × Nat :=
  let step := fun (st : List (Nat × Nat) × (Nat × Nat × Nat)) i =>
    flmRow a b blo bhi i st.1 st.2
  (((List.range ahi).drop alo).foldl step ([], (alo, blo, 0))).2

/-- Total size of all matching blocks between `a[alo:ahi]` and `b[blo:bhi]`,
with explicit fuel bounding the recursion depth. -/
def matchingSizeAux (a b : List Char) :
    Nat → Nat → Nat → Nat → Nat → Nat
  | 0, _, _, _, _ => 0
  | fuel + 1, alo, ahi, blo, bhi =>
    let r := findLongestMatch a b alo ahi blo bhi
    let i := r.1; let j := r.2.1; let k := r.2.2
    if k = 0 then 0
    else
      k + matchingSizeAux a b fuel alo i blo j
        + matchingSizeAux a b fuel (i + k) ahi (j + k) bhi

/-- Total matched size for the whole strings. -/
def matchingSize (a b : List Char) : Nat :=
  matchingSizeAux a b (a.length + b.length + 1) 0 a.length 0 b.length

/-- Model of `SequenceMatcher.ratio()`: `2*M/T`, and `1` when both strings are empty. -/
def seqRatio (a b : List Char) : ℚ :=
  let T := a.length + b.length
  if T = 0 then 1 else (2 * (matchingSize a b : ℚ)) / (T : ℚ)

/-! ### fuzzywuzzy similarity functions (`fuzz.ratio`, `fuzz.token_sort_ratio`,
`fuzz.token_set_ratio`), each returning an integer percentage. -/

/-- Model of `fuzz.ratio`: rounded percentage of the sequence-matcher ratio. -/
def fuzz_ratio (s1 s2 : String) : ℤ :=
  pyRound (100 * seqRatio s1.data s2.data)

/-- Model of `fuzzywuzzy.utils.full_process` (with `force_ascii`): keep ASCII, replace
non-word characters by spaces, lowercase, strip the ends. -/
def fullProcess (s : String) : String :=
  let cs := s.data.filter (fun c => c.toNat < 128)
  let cs := cs.map (fun c => if isWordChar c then c else ' ')
  strTrim (String.mk (cs.map Char.toLower))

/-- Model of `fuzz._process_and_sort`: full-process, split, sort tokens, rejoin. -/
def processAndSort (s : String) : String :=
  strTrim (joinSep " " (pySorted (pySplit (fullProcess s))))

/-- Model of `fuzz.token_sort_ratio`. -/
def token_sort_ratio (s1 s2 : String) : ℤ :=
  fuzz_ratio (processAndSort s1) (processAndSort s2)

/-- Model of `fuzz.token_set_ratio`. -/
def token_set_ratio (s1 s2 : String) : ℤ :=
  let p1 := fullProcess s1
  let p2 := fullProcess s2
  if p1 = "" then 0
  else if p2 = "" then 0
  else
    let t1 := pySplit p1
    let t2 := pySplit p2
    let sect := joinSep " " (pySorted (setInter t1 t2))
    let d12 := joinSep " " (pySorted (setDiff t1 t2))
    let d21 := joinSep " " (pySorted (setDiff t2 t1))
    let combined12 := strTrim (sect ++ " " ++ d12)
    let combined21 := strTrim (sect ++ " " ++ d21)
    let sect := strTrim sect
    max (max (fuzz_ratio sect combined12) (fuzz_ratio sect combined21))
      (fuzz_ratio combined12 combined21)

/-! ### The common record shape (`PaperMetadata`, `base_collector.py`) -/

/-- The `PaperMetadata` dataclass of `src/collectors/base_collector.py` (the
open `metadata` dict, never inspected by the deduplicator, is omitted). -/
structure PaperMetadata where
  title : String
  authors : List String
  abstract : String
  year : Option Int := none
  journal : Option String := none
  doi : Option String := none
  pmid : Option String := none
  semantic_scholar_id : Option String := none
  arxiv_id : Option String := none
  citation_count : Option Int := none
  pdf_url : Option String := none
  source : String := ""
  domain : String := ""
deriving DecidableEq, Repr

/-! ### Deduplicator (`src/processors/deduplicator.py`) -/

/-- The `Deduplicator` object: configuration and statistics counters. -/
structure Deduplicator where
  title_similarity_threshold : ℚ := 85/100
  doi_priority : Bool := true
  author_similarity_threshold : ℚ := 7/10
  total_papers_processed : Nat := 0
  duplicates_found : Nat := 0
  doi_matches : Nat := 0
  title_matches : Nat := 0
  author_title_matches : Nat := 0
deriving DecidableEq, Repr

/-- Embedding of `Deduplicator.__init__` with its default arguments and zeroed counters. -/
def mkDeduplicator : Deduplicator := {}

/-- Embedding of `Deduplicator._normalize_doi`: lowercase, strip, drop a leading
`doi:`/`doi.org` scheme, remove all whitespace. -/
def normalize_doi (d : String) : String :=
  let d := strTrim (strLower d)
  let d :=
    if strStartsWith d "doi:" then strDrop d 4
    else if strStartsWith d "http://doi.org/" then strDrop d 15
    else if strStartsWith d "https://doi.org/" then strDrop d 16
    else if strStartsWith d "http://dx.doi.org/" then strDrop d 18
    else if strStartsWith d "https://dx.doi.org/" then strDrop d 19
    else d
  String.mk (d.data.filter (fun c => ¬ c.isWhitespace))

/-- Stop words removed by title normalization. -/
def stopWords : List String :=
  ["a", "an", "the", "and", "or", "but", "in", "on", "at", "to", "for",
   "of", "with", "by"]

/-- Embedding of `Deduplicator._normalize_title`: lowercase, punctuation to spaces,
collapse whitespace, strip, drop stop words. -/
def normalize_title (t : String) : String :=
  let t := strLower t
  let t := String.mk (t.data.map
    (fun c => if isWordChar c || c.isWhitespace then c else ' '))
  let words := (pySplit t).filter (fun w => ¬ w ∈ stopWords)
  joinSep " " words

/-- Embedding of `Deduplicator._calculate_title_similarity`: 0 for an empty side, else
the maximum of the three fuzzywuzzy measures, as a fraction of 1. -/
def calculate_title_similarity (t1 t2 : String) : ℚ :=
  if t1 = "" || t2 = "" then 0
  else
    max (max ((fuzz_ratio t1 t2 : ℚ) / 100)
             ((token_sort_ratio t1 t2 : ℚ) / 100))
        ((token_set_ratio t1 t2 : ℚ) / 100)

/-- Degree keywords stripped from author names, in the regex's
alternation order. -/
def degreeWords : List String :=
  ["dr", "prof", "phd", "md", "msc", "bsc"]

/-- Try to match one degree keyword (with its optional trailing dot and the
regex's word-boundary conditions) at the head of `cs`, given whether the
previous character was a word character.  Returns the matched length. -/
def degreeMatchOne (cs : List Char) (kw : String) : Option Nat :=
  let kcs := kw.data
  let n := kcs.length
  if (cs.take n).map Char.toLower = kcs then
    match cs.drop n with
    | [] => some n
    | c :: rest =>
      if c = '.' then
        match rest with
        | c' :: _ => if isWordChar c' then some (n + 1) else some n
        | [] => some n
      else if isWordChar c then none
      else some n
  else none

/-- First keyword of `kws` matching at the head of `cs`. -/
def degreeMatchList (cs : List Char) : List String → Option Nat
  | [] => none
  | kw :: kws =>
    match degreeMatchOne cs kw with
    | some n => some n
    | none => degreeMatchList cs kws

def degreeMatchAt (prevIsWord : Bool) (cs : List Char) : Option Nat :=
  if prevIsWord then none
  else degreeMatchList cs degreeWords

/-- Scanner for `re.sub(r'\b(Dr|Prof|PhD|MD|MSc|BSc)\.?\b', '', name, re.I)`:
remove every non-overlapping boundary-delimited occurrence. -/
def removeDegreesAux : Nat → Bool → List Char → List Char
  | 0, _, cs => cs
  | _ + 1, _, [] => []
  | fuel + 1, prevIsWord, c :: cs =>
    match degreeMatchAt prevIsWord (c :: cs) with
    | some n =>
      let rest := (c :: cs).drop n
      let lastC := (c :: cs).getD (n - 1) ' '
      removeDegreesAux fuel (isWordChar lastC) rest
    | none => c :: removeDegreesAux fuel (isWordChar c) cs

/-- Degree-word removal on a string. -/
def removeDegrees (s : String) : String :=
  String.mk (removeDegreesAux s.data.length false s.data)

/-- Whitespace-run collapser state machine (`prevWs`: inside a run). -/
def collapseWsAux : Bool → List Char → List Char
  | _, [] => []
  | prevWs, c :: cs =>
    if c.isWhitespace then
      if prevWs then collapseWsAux true cs
      else ' ' :: collapseWsAux true cs
    else c :: collapseWsAux false cs

/-- Collapse whitespace runs to single spaces (`re.sub(r'\s+', ' ', ·)`). -/
def collapseWs (s : String) : String :=
  String.mk (collapseWsAux false s.data)

/-- Embedding of `Deduplicator._normalize_author_name`. -/
def normalize_author_name (name : String) : String :=
  if name = "" then ""
  else
    let name := removeDegrees name
    let name := collapseWs (strTrim (strLower name))
    let commaParts := splitOnChar ',' name
    if commaParts.length = 2 then
      let last_name := strTrim (commaParts.getD 0 "")
      let first_name := strTrim (commaParts.getD 1 "")
      if first_name ≠ "" then strTake first_name 1 ++ " " ++ last_name
      else last_name
    else
      let parts := pySplit name
      if 2 ≤ parts.length then
        strTake (parts.getD 0 "") 1 ++ " " ++ (parts.getLastD "")
      else name

/-- Embedding of `Deduplicator._calculate_author_similarity`: Jaccard similarity of the
sets of normalized author names. -/
def calculate_author_similarity (authors1 authors2 : List String) : ℚ :=
  if authors1 = [] || authors2 = [] then 0
  else
    let n1 := dedupFirst (authors1.map normalize_author_name)
    let n2 := dedupFirst (authors2.map normalize_author_name)
    let inter := (n1.filter (fun a => a ∈ n2)).length
    let union := n1.length + (n2.filter (fun a => ¬ a ∈ n1)).length
    if union = 0 then 0 else (inter : ℚ) / (union : ℚ)

/-- Preprint test `source == 'arxiv' or 'preprint' in (journal or '').lower()`. -/
def isPreprintRecord (p : PaperMetadata) : Bool :=
  p.source = "arxiv" || containsSub (strLower (p.journal.getD "")) "preprint"

/-- Priority-5 abstract tie-break at the tail of the cascade. -/
def abstractTieBreak (existing pNew : PaperMetadata) : Bool :=
  if existing.abstract ≠ "" && pNew.abstract = "" then true
  else if pNew.abstract ≠ "" && existing.abstract = "" then false
  else true

/-- Embedding of `Deduplicator._should_keep_existing`: the pairwise conflict cascade. -/
def should_keep_existing (existing pNew : PaperMetadata) : Bool :=
  if truthyStr existing.doi && !truthyStr pNew.doi then true
  else if truthyStr pNew.doi && !truthyStr existing.doi then false
  else if !isPreprintRecord existing && isPreprintRecord pNew then true
  else if isPreprintRecord existing && !isPreprintRecord pNew then false
  else if orZero existing.citation_count ≠ orZero pNew.citation_count then
    decide (orZero pNew.citation_count < orZero existing.citation_count)
  else if truthyInt existing.year && truthyInt pNew.year
          && existing.year.getD 0 ≠ pNew.year.getD 0 then
    decide (pNew.year.getD 0 < existing.year.getD 0)
  else abstractTieBreak existing pNew

/-- Loop of `Deduplicator._remove_doi_duplicates`. -/
def removeDoiAux (d : Deduplicator) (seen : List String)
    (uniq : List PaperMetadata) :
    List PaperMetadata → List PaperMetadata × Deduplicator
  | [] => (uniq, d)
  | p :: rest =>
    if truthyStr p.doi then
      let nd := normalize_doi (p.doi.getD "")
      if nd ∈ seen then
        removeDoiAux
          { d with duplicates_found := d.duplicates_found + 1,
                   doi_matches := d.doi_matches + 1 }
          seen uniq rest
      else removeDoiAux d (nd :: seen) (uniq ++ [p]) rest
    else removeDoiAux d seen (uniq ++ [p]) rest

/-- Embedding of `Deduplicator._remove_doi_duplicates`. -/
def remove_doi_duplicates (d : Deduplicator) (papers : List PaperMetadata) :
    List PaperMetadata × Deduplicator :=
  removeDoiAux d [] [] papers

/-- The title pass's pair test: similarity of the new paper's normalized
title against an already accepted paper meets the threshold. -/
def titleDupHit (d : Deduplicator) (p existing : PaperMetadata) : Bool :=
  decide (d.title_similarity_threshold ≤
    calculate_title_similarity (normalize_title p.title)
      (normalize_title existing.title))

/-- Loop of `Deduplicator._remove_title_duplicates`: each incoming paper is
compared against the accepted list; the first hit is resolved by the
cascade (drop the new paper, or replace the accepted one). -/
def removeTitleAux (d : Deduplicator) (uniq : List PaperMetadata) :
    List PaperMetadata → List PaperMetadata × Deduplicator
  | [] => (uniq, d)
  | p :: rest =>
    match uniq.find? (fun e => titleDupHit d p e) with
    | none => removeTitleAux d (uniq ++ [p]) rest
    | some e =>
      let d' := { d with duplicates_found := d.duplicates_found + 1,
                         title_matches := d.title_matches + 1 }
      if should_keep_existing e p then removeTitleAux d' uniq rest
      else removeTitleAux d' (uniq.erase e ++ [p]) rest

/-- Embedding of `Deduplicator._remove_title_duplicates`. -/
def remove_title_duplicates (d : Deduplicator)
    (papers : List PaperMetadata) : List PaperMetadata × Deduplicator :=
  removeTitleAux d [] papers

/-- The author+title pass's pair test: author Jaccard meets the configured
threshold and title similarity meets the fixed 0.7 floor. -/
def authorTitleDupHit (d : Deduplicator) (p existing : PaperMetadata) :
    Bool :=
  decide (d.author_similarity_threshold ≤
      calculate_author_similarity p.authors existing.authors) &&
  decide ((7/10 : ℚ) ≤
    calculate_title_similarity (normalize_title p.title)
      (normalize_title existing.title))

/-- Loop of `Deduplicator._remove_author_title_duplicates`. -/
def removeAuthorTitleAux (d : Deduplicator) (uniq : List PaperMetadata) :
    List PaperMetadata → List PaperMetadata × Deduplicator
  | [] => (uniq, d)
  | p :: rest =>
    match uniq.find? (fun e => authorTitleDupHit d p e) with
    | none => removeAuthorTitleAux d (uniq ++ [p]) rest
    | some e =>
      let d' := { d with duplicates_found := d.duplicates_found + 1,
                         author_title_matches := d.author_title_matches + 1 }
      if should_keep_existing e p then removeAuthorTitleAux d' uniq rest
      else removeAuthorTitleAux d' (uniq.erase e ++ [p]) rest

/-- Embedding of `Deduplicator._remove_author_title_duplicates`. -/
def remove_author_title_duplicates (d : Deduplicator)
    (papers : List PaperMetadata) : List PaperMetadata × Deduplicator :=
  removeAuthorTitleAux d [] papers

/-- Embedding of `Deduplicator._create_paper_key`: first 50 normalized-title characters
plus the sorted nonempty normalized keys of the first three authors. -/
def create_paper_key (p : PaperMetadata) : String :=
  let title_key := strTake (normalize_title p.title) 50
  let author_keys :=
    ((p.authors.take 3).map normalize_author_name).filter (fun a => a ≠ "")
  title_key ++ "#" ++ joinSep "|" (pySorted author_keys)

/-- Append `p` to the group keyed `k`, creating the group at the end if new
(Python dict insertion order). -/
def insertGroup (k : String) (p : PaperMetadata) :
    List (String × List PaperMetadata) →
    List (String × List PaperMetadata)
  | [] => [(k, [p])]
  | (k', g) :: rest =>
    if k' = k then (k', g ++ [p]) :: rest
    else (k', g) :: insertGroup k p rest

/-- Group papers by `create_paper_key`, preserving insertion order. -/
def groupPapers (papers : List PaperMetadata) :
    List (String × List PaperMetadata) :=
  papers.foldl (fun gs p => insertGroup (create_paper_key p) p gs) []

/-- Embedding of the `sort_key` scoring function of `Deduplicator._choose_best_version`. -/
def sort_key (p : PaperMetadata) : ℚ :=
  (if truthyStr p.doi then 100 else 0) +
  (if p.source ≠ "arxiv" &&
      !containsSub (strLower (p.journal.getD "")) "preprint" then 50 else 0) +
  (orZero p.citation_count : ℚ) +
  (if truthyInt p.year then (p.year.getD 0 : ℚ) * (1/10) else 0) +
  (if p.abstract ≠ "" then 10 else 0)

/-- Embedding of `Deduplicator._choose_best_version`: Python `max(papers, key=sort_key)`,
keeping the earliest paper on score ties. -/
def choose_best_version : List PaperMetadata → PaperMetadata
  | [] => { title := "", authors := [], abstract := "" }
  | p :: rest =>
    rest.foldl (fun best q => if sort_key best < sort_key q then q else best) p

/-- Per-group survivor selection of `_handle_preprint_duplicates`. -/
def collectGroups (d : Deduplicator) :
    List (String × List PaperMetadata) →
    List PaperMetadata × Deduplicator
  | [] => ([], d)
  | (_, g) :: rest =>
    match g with
    | [] => collectGroups d rest
    | [p] =>
      let r := collectGroups d rest
      (p :: r.1, r.2)
    | p :: q :: g' =>
      let d' := { d with duplicates_found :=
        d.duplicates_found + ((p :: q :: g').length - 1) }
      let r := collectGroups d' rest
      (choose_best_version (p :: q :: g') :: r.1, r.2)

/-- Embedding of `Deduplicator._handle_preprint_duplicates`. -/
def handle_preprint_duplicates (d : Deduplicator)
    (papers : List PaperMetadata) : List PaperMetadata × Deduplicator :=
  collectGroups d (groupPapers papers)

/-- Embedding of `Deduplicator.deduplicate_papers`: the four passes in order.  The final
completion log divides by `total_papers_processed`; on an empty input that
is a division by zero, modelled as `none`. -/
def deduplicate_papers (d : Deduplicator) (papers : List PaperMetadata) :
    Option (List PaperMetadata × Deduplicator) :=
  let d := { d with total_papers_processed := papers.length }
  let r1 := remove_doi_duplicates d papers
  let r2 := remove_title_duplicates r1.2 r1.1
  let r3 := remove_author_title_duplicates r2.2 r2.1
  let r4 := handle_preprint_duplicates r3.2 r3.1
  if r4.2.total_papers_processed = 0 then none else some r4

/-- Result shape of `Deduplicator.get_deduplication_stats`. -/
structure DedupStats where
  total_papers_processed : Nat
  duplicates_found : Nat
  duplicate_rate : ℚ
  doi_matches : Nat
  title_matches : Nat
  author_title_matches : Nat
  unique_papers_remaining : Int
deriving DecidableEq, Repr

/-- Embedding of `Deduplicator.get_deduplication_stats`. -/
def get_deduplication_stats (d : Deduplicator) : DedupStats :=
  { total_papers_processed := d.total_papers_processed
    duplicates_found := d.duplicates_found
    duplicate_rate :=
      if 0 < d.total_papers_processed then
        (d.duplicates_found : ℚ) / (d.total_papers_processed : ℚ)
      else 0
    doi_matches := d.doi_matches
    title_matches := d.title_matches
    author_title_matches := d.author_title_matches
    unique_papers_remaining :=
      (d.total_papers_processed : Int) - (d.duplicates_found : Int) }

/-! ### Client-side year filtering (`arxiv_collector.py`,
`semantic_scholar_collector.py`) -/

namespace ArxivCollector

/-- Embedding of `ArxivCollector._filter_by_year`: keep papers with a falsy year, else
test membership of the closed interval. -/
def filter_by_year (paper : PaperMetadata) (year_start year_end : Int) :
    Bool :=
  if !truthyInt paper.year then true
  else decide (year_start ≤ paper.year.getD 0) &&
       decide (paper.year.getD 0 ≤ year_end)

end ArxivCollector

namespace SemanticScholarCollector

/-- Embedding of `SemanticScholarCollector._filter_by_year` (same body as arXiv's). -/
def filter_by_year (paper : PaperMetadata) (year_start year_end : Int) :
    Bool :=
  if !truthyInt paper.year then true
  else decide (year_start ≤ paper.year.getD 0) &&
       decide (paper.year.getD 0 ≤ year_end)

end SemanticScholarCollector

/-! ### Retrying request wrapper (`base_collector.py`)

`BaseCollector._make_request_with_retry` is decorated with tenacity's
`@retry(stop=stop_after_attempt(3), wait=wait_exponential(...),
reraise=True)`.  The wrapped operation is modelled as a map from attempt
index to that attempt's outcome; the real blocking waits have no observable
effect on results or counters. -/

/-- The request counters of a `BaseCollector`. -/
structure BaseCollector where
  total_requests : Nat := 0
  successful_requests : Nat := 0
  failed_requests : Nat := 0
deriving DecidableEq, Repr

/-- One attempt: the body of `_make_request_with_retry` (rate-limit wait,
count the attempt, run the operation, count success or failure and
re-raise). -/
def attemptOnce {ε α : Type} (st : BaseCollector) (r : Except ε α) :
    BaseCollector × Except ε α :=
  let st := { st with total_requests := st.total_requests + 1 }
  match r with
  | Except.ok a =>
    ({ st with successful_requests := st.successful_requests + 1 },
     Except.ok a)
  | Except.error e =>
    ({ st with failed_requests := st.failed_requests + 1 }, Except.error e)

/-- Tenacity's retry loop: `k` is the current attempt index, `r` the number
of retries still allowed after it; with `reraise=True` the final attempt's
exception is returned as-is. -/
def retryCall {ε α : Type} (f : Nat → Except ε α) :
    BaseCollector → Nat → Nat → BaseCollector × Except ε α
  | st, k, 0 => attemptOnce st (f k)
  | st, k, r + 1 =>
    match attemptOnce st (f k) with
    | (st', Except.ok a) => (st', Except.ok a)
    | (st', Except.error _) => retryCall f st' (k + 1) r

/-- Embedding of `BaseCollector._make_request_with_retry`: `stop_after_attempt(3)` means
attempt 0 plus at most 2 retries. -/
def make_request_with_retry {ε α : Type} (st : BaseCollector)
    (f : Nat → Except ε α) : BaseCollector × Except ε α :=
  retryCall f st 0 2

/-! ### Counter-update combinators (used to state the pass invariants) -/

/-- State after the DOI pass records `k` removals. -/
def bumpDoi (d : Deduplicator) (k : Nat) : Deduplicator :=
  { d with duplicates_found := d.duplicates_found + k,
           doi_matches := d.doi_matches + k }

/-- State after the title pass records `k` removals. -/
def bumpTitle (d : Deduplicator) (k : Nat) : Deduplicator :=
  { d with duplicates_found := d.duplicates_found + k,
           title_matches := d.title_matches + k }

/-- State after the author+title pass records `k` removals. -/
def bumpAT (d : Deduplicator) (k : Nat) : Deduplicator :=
  { d with duplicates_found := d.duplicates_found + k,
           author_title_matches := d.author_title_matches + k }

/-- State after the version-collapse pass records `k` removals. -/
def bumpPre (d : Deduplicator) (k : Nat) : Deduplicator :=
  { d with duplicates_found := d.duplicates_found + k }

/-- Total number of papers stored in a group list. -/
def sumSizes (gs : List (String × List PaperMetadata)) : Nat :=
  (gs.map (fun g => g.2.length)).sum

/-! ### Concrete records used by the scenario theorems -/

/-- C1 scenario: the `pubmed` member of the same-DOI pair. -/
def pubC1 : PaperMetadata :=
  { title := "alpha bravo", authors := [], abstract := ""
    doi := some "10.1234/test1", source := "pubmed" }

/-- C1 scenario: the `semantic_scholar` member of the same-DOI pair. -/
def ssC1 : PaperMetadata :=
  { title := "charlie delta", authors := [], abstract := ""
    doi := some "10.1234/test1", citation_count := some 5
    source := "semantic_scholar" }

/-- C1 scenario: the unrelated record with a distinct DOI. -/
def otherC1 : PaperMetadata :=
  { title := "echo foxtrot", authors := [], abstract := ""
    doi := some "10.9999/zzz", source := "doaj" }

/-- C2 scenario: no DOI; its title tokens are a subset of `p3C2`'s. -/
def p1C2 : PaperMetadata :=
  { title := "muscle growth", authors := [], abstract := "" }

/-- C2 scenario: distinct DOI; title tokens also a subset of `p3C2`'s. -/
def p2C2 : PaperMetadata :=
  { title := "sprint speed", authors := [], abstract := ""
    doi := some "10.1/b" }

/-- C2 scenario: has a DOI, so it replaces `p1C2` in the title pass and the
loop breaks before it is ever compared with `p2C2`. -/
def p3C2 : PaperMetadata :=
  { title := "muscle growth sprint speed", authors := [], abstract := ""
    doi := some "10.1/c" }

/-- Shared normalized-distinct author names for the C5 scenario. -/
def sharedAuthors : List String :=
  ["s01", "s02", "s03", "s04", "s05", "s06", "s07", "s08", "s09", "s10",
   "s11", "s12", "s13", "s14", "s15", "s16", "s17", "s18"]

/-- C5: author list with 18 shared + 4 unique keys. -/
def authorsA : List String := sharedAuthors ++ ["a1", "a2", "a3", "a4"]

/-- C5: author list with 18 shared + 3 unique keys (Jaccard 18/25 = 0.72). -/
def authorsB : List String := sharedAuthors ++ ["b1", "b2", "b3"]

/-- C5: title similarity with `atB69` is exactly 0.69. -/
def atA69 : PaperMetadata :=
  { title := "abcdefghiwxyz", authors := authorsA, abstract := "" }

/-- C5: second record of the 0.69-title pair. -/
def atB69 : PaperMetadata :=
  { title := "abcdefghiqrst", authors := authorsB, abstract := "" }

/-- C5: title similarity with `atB70` is exactly 0.70. -/
def atA70 : PaperMetadata :=
  { title := "abcdefguvw", authors := authorsA, abstract := "" }

/-- C5: second record of the 0.70-title pair. -/
def atB70 : PaperMetadata :=
  { title := "abcdefgxyz", authors := authorsB, abstract := "" }

/-- C3 counterexample: existing record with no year but an abstract. -/
def eC3 : PaperMetadata :=
  { title := "alpha bravo", authors := [], abstract := "x", year := none }

/-- C3 counterexample: new record with a year and no abstract. -/
def nC3 : PaperMetadata :=
  { title := "charlie delta", authors := [], abstract := ""
    year := some 2020 }

/-- C4 counterexample: its title is a single stop word. -/
def swA : PaperMetadata :=
  { title := "the", authors := [], abstract := "" }

/-- C4 counterexample: another all-stop-word title. -/
def swB : PaperMetadata :=
  { title := "of", authors := [], abstract := "" }

/-- C6 counterexample: a record whose year is the integer 0. -/
def year0Paper : PaperMetadata :=
  { title := "alpha bravo", authors := [], abstract := "", year := some 0 }

/-- C9 scenario, first call: first member of a same-DOI pair. -/
def aC9 : PaperMetadata :=
  { title := "alpha bravo", authors := [], abstract := ""
    doi := some "10.1/a" }

/-- C9 scenario, first call: second member of the same-DOI pair. -/
def a'C9 : PaperMetadata :=
  { title := "charlie delta", authors := [], abstract := ""
    doi := some "10.1/a" }

/-- C9 scenario, second call: a single fresh record. -/
def bC9 : PaperMetadata :=
  { title := "golf hotel", authors := [], abstract := "" }

/-! ## Proofs

Batteries seals the rational operations; reopening them lets `decide` and
`rfl` evaluate the embedded similarity scores. -/

attribute [local semireducible] Rat.mul Rat.add Rat.sub Rat.inv

set_option maxRecDepth 16384

theorem bumpDoi_zero (d : Deduplicator) : bumpDoi d 0 = d := by
  simp [bumpDoi]

theorem bumpDoi_bumpDoi (d : Deduplicator) (a b : Nat) :
    bumpDoi (bumpDoi d a) b = bumpDoi d (a + b) := by
  simp [bumpDoi, Nat.add_assoc]

theorem removeDoiAux_spec : ∀ (rest : List PaperMetadata) (d : Deduplicator)
    (seen : List String) (uniq out : List PaperMetadata)
    (st' : Deduplicator),
    removeDoiAux d seen uniq rest = (out, st') →
    ∃ k, st' = bumpDoi d k ∧ out.length + k = uniq.length + rest.length ∧
      ∀ p ∈ out, p ∈ uniq ∨ p ∈ rest := by
  intro rest
  induction rest with
  | nil =>
    intro d seen uniq out st' h
    simp [removeDoiAux] at h
    refine ⟨0, ?_, ?_, ?_⟩
    · rw [bumpDoi_zero, ← h.2]
    · simp [← h.1]
    · intro p hp
      rw [← h.1] at hp
      exact Or.inl hp
  | cons p rest ih =>
    intro d seen uniq out st' h
    rw [removeDoiAux] at h
    by_cases hdoi : truthyStr p.doi = true
    · rw [if_pos hdoi] at h
      by_cases hseen : normalize_doi (p.doi.getD "") ∈ seen
      · rw [if_pos hseen] at h
        obtain ⟨k, hst, hlen, hmem⟩ := ih _ _ _ _ _ h
        refine ⟨1 + k, ?_, ?_, ?_⟩
        · rw [hst]
          simp [bumpDoi, Nat.add_assoc, Nat.add_comm 1 k]
        · simp only [List.length_cons]
          omega
        · intro q hq
          rcases hmem q hq with h1 | h2
          · exact Or.inl h1
          · exact Or.inr (List.mem_cons_of_mem _ h2)
      · rw [if_neg hseen] at h
        obtain ⟨k, hst, hlen, hmem⟩ := ih _ _ _ _ _ h
        refine ⟨k, hst, ?_, ?_⟩
        · simp only [List.length_append, List.length_cons, List.length_nil] at hlen ⊢
          omega
        · intro q hq
          rcases hmem q hq with h1 | h2
          · rcases List.mem_append.mp h1 with h1a | h1b
            · exact Or.inl h1a
            · simp at h1b
              exact Or.inr (by simp [h1b])
          · exact Or.inr (List.mem_cons_of_mem _ h2)
    · rw [if_neg hdoi] at h
      obtain ⟨k, hst, hlen, hmem⟩ := ih _ _ _ _ _ h
      refine ⟨k, hst, ?_, ?_⟩
      · simp only [List.length_append, List.length_cons, List.length_nil] at hlen ⊢
        omega
      · intro q hq
        rcases hmem q hq with h1 | h2
        · rcases List.mem_append.mp h1 with h1a | h1b
          · exact Or.inl h1a
          · simp at h1b
            exact Or.inr (by simp [h1b])
        · exact Or.inr (List.mem_cons_of_mem _ h2)

theorem bumpTitle_zero (d : Deduplicator) : bumpTitle d 0 = d := by
  simp [bumpTitle]

theorem removeTitleAux_spec : ∀ (rest : List PaperMetadata)
    (d : Deduplicator) (uniq out : List PaperMetadata) (st' : Deduplicator),
    removeTitleAux d uniq rest = (out, st') →
    ∃ k, st' = bumpTitle d k ∧ out.length + k = uniq.length + rest.length ∧
      ∀ p ∈ out, p ∈ uniq ∨ p ∈ rest := by
  intro rest
  induction rest with
  | nil =>
    intro d uniq out st' h
    simp [removeTitleAux] at h
    refine ⟨0, ?_, ?_, ?_⟩
    · rw [bumpTitle_zero, ← h.2]
    · simp [← h.1]
    · intro p hp
      rw [← h.1] at hp
      exact Or.inl hp
  | cons p rest ih =>
    intro d uniq out st' h
    rw [removeTitleAux] at h
    cases hf : uniq.find? (fun e => titleDupHit d p e) with
    | none =>
      rw [hf] at h
      obtain ⟨k, hst, hlen, hmem⟩ := ih _ _ _ _ h
      refine ⟨k, hst, ?_, ?_⟩
      · simp only [List.length_append, List.length_cons, List.length_nil]
          at hlen ⊢
        omega
      · intro q hq
        rcases hmem q hq with h1 | h2
        · rcases List.mem_append.mp h1 with h1a | h1b
          · exact Or.inl h1a
          · simp at h1b
            exact Or.inr (by simp [h1b])
        · exact Or.inr (List.mem_cons_of_mem _ h2)
    | some e =>
      simp only [hf] at h
      have he : e ∈ uniq := List.mem_of_find?_eq_some hf
      have hpos : 1 ≤ uniq.length := List.length_pos.mpr
        (List.ne_nil_of_mem he)
      by_cases hk : should_keep_existing e p = true
      · rw [if_pos hk] at h
        obtain ⟨k, hst, hlen, hmem⟩ := ih _ _ _ _ h
        refine ⟨1 + k, ?_, ?_, ?_⟩
        · rw [hst]
          simp [bumpTitle, Nat.add_assoc, Nat.add_comm 1 k]
        · simp only [List.length_cons]
          omega
        · intro q hq
          rcases hmem q hq with h1 | h2
          · exact Or.inl h1
          · exact Or.inr (List.mem_cons_of_mem _ h2)
      · rw [if_neg hk] at h
        obtain ⟨k, hst, hlen, hmem⟩ := ih _ _ _ _ h
        have herase : (uniq.erase e).length = uniq.length - 1 :=
          List.length_erase_of_mem he
        refine ⟨1 + k, ?_, ?_, ?_⟩
        · rw [hst]
          simp [bumpTitle, Nat.add_assoc, Nat.add_comm 1 k]
        · simp only [List.length_append, List.length_cons, List.length_nil]
            at hlen ⊢
          omega
        · intro q hq
          rcases hmem q hq with h1 | h2
          · rcases List.mem_append.mp h1 with h1a | h1b
            · exact Or.inl (List.mem_of_mem_erase h1a)
            · simp at h1b
              exact Or.inr (by simp [h1b])
          · exact Or.inr (List.mem_cons_of_mem _ h2)

theorem bumpAT_zero (d : Deduplicator) : bumpAT d 0 = d := by
  simp [bumpAT]

theorem removeAuthorTitleAux_spec : ∀ (rest : List PaperMetadata)
    (d : Deduplicator) (uniq out : List PaperMetadata) (st' : Deduplicator),
    removeAuthorTitleAux d uniq rest = (out, st') →
    ∃ k, st' = bumpAT d k ∧ out.length + k = uniq.length + rest.length ∧
      ∀ p ∈ out, p ∈ uniq ∨ p ∈ rest := by
  intro rest
  induction rest with
  | nil =>
    intro d uniq out st' h
    simp [removeAuthorTitleAux] at h
    refine ⟨0, ?_, ?_, ?_⟩
    · rw [bumpAT_zero, ← h.2]
    · simp [← h.1]
    · intro p hp
      rw [← h.1] at hp
      exact Or.inl hp
  | cons p rest ih =>
    intro d uniq out st' h
    rw [removeAuthorTitleAux] at h
    cases hf : uniq.find? (fun e => authorTitleDupHit d p e) with
    | none =>
      rw [hf] at h
      obtain ⟨k, hst, hlen, hmem⟩ := ih _ _ _ _ h
      refine ⟨k, hst, ?_, ?_⟩
      · simp only [List.length_append, List.length_cons, List.length_nil]
          at hlen ⊢
        omega
      · intro q hq
        rcases hmem q hq with h1 | h2
        · rcases List.mem_append.mp h1 with h1a | h1b
          · exact Or.inl h1a
          · simp at h1b
            exact Or.inr (by simp [h1b])
        · exact Or.inr (List.mem_cons_of_mem _ h2)
    | some e =>
      simp only [hf] at h
      have he : e ∈ uniq := List.mem_of_find?_eq_some hf
      have hpos : 1 ≤ uniq.length := List.length_pos.mpr
        (List.ne_nil_of_mem he)
      by_cases hk : should_keep_existing e p = true
      · rw [if_pos hk] at h
        obtain ⟨k, hst, hlen, hmem⟩ := ih _ _ _ _ h
        refine ⟨1 + k, ?_, ?_, ?_⟩
        · rw [hst]
          simp [bumpAT, Nat.add_assoc, Nat.add_comm 1 k]
        · simp only [List.length_cons]
          omega
        · intro q hq
          rcases hmem q hq with h1 | h2
          · exact Or.inl h1
          · exact Or.inr (List.mem_cons_of_mem _ h2)
      · rw [if_neg hk] at h
        obtain ⟨k, hst, hlen, hmem⟩ := ih _ _ _ _ h
        have herase : (uniq.erase e).length = uniq.length - 1 :=
          List.length_erase_of_mem he
        refine ⟨1 + k, ?_, ?_, ?_⟩
        · rw [hst]
          simp [bumpAT, Nat.add_assoc, Nat.add_comm 1 k]
        · simp only [List.length_append, List.length_cons, List.length_nil]
            at hlen ⊢
          omega
        · intro q hq
          rcases hmem q hq with h1 | h2
          · rcases List.mem_append.mp h1 with h1a | h1b
            · exact Or.inl (List.mem_of_mem_erase h1a)
            · simp at h1b
              exact Or.inr (by simp [h1b])
          · exact Or.inr (List.mem_cons_of_mem _ h2)

theorem choose_best_foldl_mem (l : List PaperMetadata) :
    ∀ acc : PaperMetadata,
    l.foldl (fun best q => if sort_key best < sort_key q then q else best)
      acc = acc ∨
    l.foldl (fun best q => if sort_key best < sort_key q then q else best)
      acc ∈ l := by
  induction l with
  | nil => intro acc; exact Or.inl rfl
  | cons q l ih =>
    intro acc
    simp only [List.foldl_cons]
    by_cases hq : sort_key acc < sort_key q
    · rw [if_pos hq]
      rcases ih q with h | h
      · exact Or.inr (by simp [h])
      · exact Or.inr (List.mem_cons_of_mem _ h)
    · rw [if_neg hq]
      rcases ih acc with h | h
      · exact Or.inl h
      · exact Or.inr (List.mem_cons_of_mem _ h)

theorem choose_best_mem (g : List PaperMetadata) (hg : g ≠ []) :
    choose_best_version g ∈ g := by
  cases g with
  | nil => exact absurd rfl hg
  | cons p l =>
    rw [choose_best_version]
    rcases choose_best_foldl_mem l p with h | h
    · simp [h]
    · exact List.mem_cons_of_mem _ h

theorem insertGroup_sum (k : String) (p : PaperMetadata) :
    ∀ gs, sumSizes (insertGroup k p gs) = sumSizes gs + 1 := by
  intro gs
  induction gs with
  | nil => simp [insertGroup, sumSizes]
  | cons g gs ih =>
    rw [insertGroup]
    by_cases hk : g.1 = k
    · rw [if_pos hk]
      simp [sumSizes, Nat.add_assoc, Nat.add_comm, Nat.add_left_comm]
    · rw [if_neg hk]
      simp only [sumSizes, List.map_cons, List.sum_cons] at ih ⊢
      omega

theorem insertGroup_len (k : String) (p : PaperMetadata) :
    ∀ gs, (insertGroup k p gs).length ≤ gs.length + 1 := by
  intro gs
  induction gs with
  | nil => simp [insertGroup]
  | cons g gs ih =>
    rw [insertGroup]
    by_cases hk : g.1 = k
    · rw [if_pos hk]; simp
    · rw [if_neg hk]
      simp only [List.length_cons]
      omega

theorem insertGroup_mem (k : String) (p : PaperMetadata) :
    ∀ gs, ∀ g ∈ insertGroup k p gs, ∀ q ∈ g.2,
      (∃ g0 ∈ gs, q ∈ g0.2) ∨ q = p := by
  intro gs
  induction gs with
  | nil =>
    intro g hg q hq
    simp [insertGroup] at hg
    rw [hg] at hq
    simp at hq
    exact Or.inr hq
  | cons g0 gs ih =>
    intro g hg q hq
    rw [insertGroup] at hg
    by_cases hk : g0.1 = k
    · rw [if_pos hk] at hg
      rcases List.mem_cons.mp hg with h1 | h2
      · rw [h1] at hq
        simp at hq
        rcases hq with ha | hb
        · exact Or.inl ⟨g0, List.mem_cons_self _ _, ha⟩
        · exact Or.inr hb
      · exact Or.inl ⟨g, List.mem_cons_of_mem _ h2, hq⟩
    · rw [if_neg hk] at hg
      rcases List.mem_cons.mp hg with h1 | h2
      · rw [h1] at hq
        exact Or.inl ⟨g0, List.mem_cons_self _ _, hq⟩
      · rcases ih g h2 q hq with h | h
        · rcases h with ⟨g1, hg1, hq1⟩
          exact Or.inl ⟨g1, List.mem_cons_of_mem _ hg1, hq1⟩
        · exact Or.inr h

theorem insertGroup_nonnil (k : String) (p : PaperMetadata) :
    ∀ gs, (∀ g ∈ gs, g.2 ≠ []) → ∀ g ∈ insertGroup k p gs, g.2 ≠ [] := by
  intro gs
  induction gs with
  | nil =>
    intro _ g hg
    simp [insertGroup] at hg
    rw [hg]
    simp
  | cons g0 gs ih =>
    intro hnn g hg
    rw [insertGroup] at hg
    by_cases hk : g0.1 = k
    · rw [if_pos hk] at hg
      rcases List.mem_cons.mp hg with h1 | h2
      · rw [h1]; simp
      · exact hnn g (List.mem_cons_of_mem _ h2)
    · rw [if_neg hk] at hg
      rcases List.mem_cons.mp hg with h1 | h2
      · rw [h1]; exact hnn g0 (List.mem_cons_self _ _)
      · exact ih (fun g hgg => hnn g (List.mem_cons_of_mem _ hgg)) g h2

theorem groupFold_sum : ∀ (ps : List PaperMetadata)
    (gs : List (String × List PaperMetadata)),
    sumSizes (ps.foldl
      (fun gs p => insertGroup (create_paper_key p) p gs) gs) =
      sumSizes gs + ps.length := by
  intro ps
  induction ps with
  | nil => intro gs; simp
  | cons p ps ih =>
    intro gs
    simp only [List.foldl_cons, List.length_cons]
    rw [ih, insertGroup_sum]
    omega

theorem groupFold_len : ∀ (ps : List PaperMetadata)
    (gs : List (String × List PaperMetadata)),
    (ps.foldl (fun gs p => insertGroup (create_paper_key p) p gs)
      gs).length ≤ gs.length + ps.length := by
  intro ps
  induction ps with
  | nil => intro gs; simp
  | cons p ps ih =>
    intro gs
    simp only [List.foldl_cons, List.length_cons]
    calc (ps.foldl (fun gs p => insertGroup (create_paper_key p) p gs)
            (insertGroup (create_paper_key p) p gs)).length
        ≤ (insertGroup (create_paper_key p) p gs).length + ps.length :=
          ih _
      _ ≤ gs.length + 1 + ps.length := by
          have := insertGroup_len (create_paper_key p) p gs
          omega
      _ = gs.length + (ps.length + 1) := by omega

theorem groupFold_mem : ∀ (ps : List PaperMetadata)
    (gs : List (String × List PaperMetadata)),
    ∀ g ∈ ps.foldl (fun gs p => insertGroup (create_paper_key p) p gs) gs,
    ∀ q ∈ g.2, (∃ g0 ∈ gs, q ∈ g0.2) ∨ q ∈ ps := by
  intro ps
  induction ps with
  | nil =>
    intro gs g hg q hq
    exact Or.inl ⟨g, hg, hq⟩
  | cons p ps ih =>
    intro gs g hg q hq
    simp only [List.foldl_cons] at hg
    rcases ih _ g hg q hq with h | h
    · rcases h with ⟨g0, hg0, hq0⟩
      rcases insertGroup_mem (create_paper_key p) p gs g0 hg0 q hq0
        with h1 | h2
      · exact Or.inl h1
      · exact Or.inr (by simp [h2])
    · exact Or.inr (List.mem_cons_of_mem _ h)

theorem groupFold_nonnil : ∀ (ps : List PaperMetadata)
    (gs : List (String × List PaperMetadata)),
    (∀ g ∈ gs, g.2 ≠ []) →
    ∀ g ∈ ps.foldl (fun gs p => insertGroup (create_paper_key p) p gs) gs,
    g.2 ≠ [] := by
  intro ps
  induction ps with
  | nil => intro gs h g hg; exact h g hg
  | cons p ps ih =>
    intro gs h g hg
    simp only [List.foldl_cons] at hg
    exact ih _ (insertGroup_nonnil _ _ gs h) g hg

theorem groupPapers_sum (ps : List PaperMetadata) :
    sumSizes (groupPapers ps) = ps.length := by
  rw [groupPapers, groupFold_sum]
  simp [sumSizes]

theorem groupPapers_len (ps : List PaperMetadata) :
    (groupPapers ps).length ≤ ps.length := by
  rw [groupPapers]
  have := groupFold_len ps []
  simpa using this

theorem groupPapers_mem (ps : List PaperMetadata) :
    ∀ g ∈ groupPapers ps, ∀ q ∈ g.2, q ∈ ps := by
  intro g hg q hq
  rcases groupFold_mem ps [] g hg q hq with h | h
  · rcases h with ⟨g0, hg0, _⟩
    simp at hg0
  · exact h

theorem groupPapers_nonnil (ps : List PaperMetadata) :
    ∀ g ∈ groupPapers ps, g.2 ≠ [] := by
  intro g hg
  exact groupFold_nonnil ps [] (by simp) g hg

theorem bumpPre_zero (d : Deduplicator) : bumpPre d 0 = d := by
  simp [bumpPre]

theorem collectGroups_spec : ∀ (gs : List (String × List PaperMetadata))
    (d : Deduplicator) (out : List PaperMetadata) (st' : Deduplicator),
    collectGroups d gs = (out, st') → (∀ g ∈ gs, g.2 ≠ []) →
    ∃ k, st' = bumpPre d k ∧ out.length + k = sumSizes gs ∧
      ∀ p ∈ out, ∃ g ∈ gs, p ∈ g.2 := by
  intro gs
  induction gs with
  | nil =>
    intro d out st' h _
    simp [collectGroups] at h
    refine ⟨0, ?_, ?_, ?_⟩
    · rw [bumpPre_zero, ← h.2]
    · simp [← h.1, sumSizes]
    · intro p hp
      rw [h.1] at hp
      simp at hp
  | cons g0 gs ih =>
    intro d out st' h hnn
    obtain ⟨g0k, g0v⟩ := g0
    have hg0nn : g0v ≠ [] := hnn (g0k, g0v) (List.mem_cons_self _ _)
    rcases g0v with _ | ⟨p, g'⟩
    · exact absurd rfl hg0nn
    · rcases g' with _ | ⟨q, g''⟩
      · -- singleton group
        rw [collectGroups] at h
        rcases hrec : collectGroups d gs with ⟨out1, st1⟩
        rw [hrec] at h
        simp only [Prod.mk.injEq] at h
        obtain ⟨k, hst, hlen, hmem⟩ :=
          ih d out1 st1 hrec (fun g hgg => hnn g (List.mem_cons_of_mem _ hgg))
        refine ⟨k, by rw [← h.2, hst], ?_, ?_⟩
        · rw [← h.1]
          simp only [sumSizes, List.map_cons, List.sum_cons,
            List.length_cons, List.length_nil]
          simp only [sumSizes] at hlen
          omega
        · intro r hr
          rw [← h.1] at hr
          rcases List.mem_cons.mp hr with h1 | h2
          · exact ⟨(g0k, [p]), List.mem_cons_self _ _, by simp [h1]⟩
          · rcases hmem r h2 with ⟨g1, hg1, hr1⟩
            exact ⟨g1, List.mem_cons_of_mem _ hg1, hr1⟩
      · -- group with at least two members
        rw [collectGroups] at h
        rcases hrec : collectGroups
            { d with duplicates_found :=
                d.duplicates_found + ((p :: q :: g'').length - 1) } gs
          with ⟨out1, st1⟩
        rw [hrec] at h
        simp only [Prod.mk.injEq] at h
        obtain ⟨k, hst, hlen, hmem⟩ :=
          ih _ out1 st1 hrec (fun g hgg => hnn g (List.mem_cons_of_mem _ hgg))
        refine ⟨(p :: q :: g'').length - 1 + k, ?_, ?_, ?_⟩
        · rw [← h.2, hst]
          simp [bumpPre, Nat.add_assoc]
        · rw [← h.1]
          simp only [sumSizes, List.map_cons, List.sum_cons] at hlen ⊢
          simp only [List.length_cons]
          omega
        · intro r hr
          rw [← h.1] at hr
          rcases List.mem_cons.mp hr with h1 | h2
          · refine ⟨(g0k, p :: q :: g''), List.mem_cons_self _ _, ?_⟩
            rw [h1]
            exact choose_best_mem _ (by simp)
          · rcases hmem r h2 with ⟨g1, hg1, hr1⟩
            exact ⟨g1, List.mem_cons_of_mem _ hg1, hr1⟩

theorem deduplicate_papers_spec : ∀ (d : Deduplicator)
    (ps out : List PaperMetadata) (st' : Deduplicator),
    deduplicate_papers d ps = some (out, st') →
    ∃ (k1 k2 k3 k4 : Nat) (r1 r2 r3 : List PaperMetadata × Deduplicator),
      remove_doi_duplicates
        { d with total_papers_processed := ps.length } ps = r1 ∧
      remove_title_duplicates r1.2 r1.1 = r2 ∧
      remove_author_title_duplicates r2.2 r2.1 = r3 ∧
      handle_preprint_duplicates r3.2 r3.1 = (out, st') ∧
      r1.2 = bumpDoi { d with total_papers_processed := ps.length } k1 ∧
      r2.2 = bumpTitle r1.2 k2 ∧
      r3.2 = bumpAT r2.2 k3 ∧
      st' = bumpPre r3.2 k4 ∧
      r1.1.length + k1 = ps.length ∧
      r2.1.length + k2 = r1.1.length ∧
      r3.1.length + k3 = r2.1.length ∧
      out.length + k4 = r3.1.length ∧
      (∀ p ∈ out, p ∈ ps) := by
  intro d ps out st' h
  rw [deduplicate_papers] at h
  rcases h1 : remove_doi_duplicates
      { d with total_papers_processed := ps.length } ps with ⟨o1, s1⟩
  rcases h2 : remove_title_duplicates s1 o1 with ⟨o2, s2⟩
  rcases h3 : remove_author_title_duplicates s2 o2 with ⟨o3, s3⟩
  rcases h4 : handle_preprint_duplicates s3 o3 with ⟨o4, s4⟩
  simp only [h1, h2, h3, h4] at h
  split at h
  · exact absurd h (by simp)
  · simp only [Option.some.injEq, Prod.mk.injEq] at h
    obtain ⟨ho, hs⟩ := h
    rw [ho, hs] at h4
    obtain ⟨k1, hk1, hl1, hm1⟩ := removeDoiAux_spec ps _ [] [] o1 s1 h1
    obtain ⟨k2, hk2, hl2, hm2⟩ := removeTitleAux_spec o1 s1 [] o2 s2 h2
    obtain ⟨k3, hk3, hl3, hm3⟩ := removeAuthorTitleAux_spec o2 s2 [] o3 s3 h3
    have h4c : collectGroups s3 (groupPapers o3) = (out, st') := h4
    obtain ⟨k4, hk4, hl4, hm4⟩ :=
      collectGroups_spec (groupPapers o3) s3 out st' h4c
        (groupPapers_nonnil o3)
    refine ⟨k1, k2, k3, k4, _, _, _,
      rfl, h2, h3, h4, hk1, hk2, hk3, hk4, ?_, ?_, ?_, ?_, ?_⟩
    · simpa using hl1
    · simpa using hl2
    · simpa using hl3
    · rw [groupPapers_sum] at hl4
      exact hl4
    · intro p hp
      rcases hm4 p hp with ⟨g, hg, hpg⟩
      have hp3 : p ∈ o3 := groupPapers_mem o3 g hg p hpg
      have hp2 : p ∈ o2 := by
        rcases hm3 p hp3 with hc | hc
        · simp at hc
        · exact hc
      have hp1 : p ∈ o1 := by
        rcases hm2 p hp2 with hc | hc
        · simp at hc
        · exact hc
      rcases hm1 p hp1 with hc | hc
      · simp at hc
      · exact hc

/-- Auxiliary: on the empty list every pass is a no-op and the completion
log's division by `total_papers_processed = 0` fails. -/
theorem dedup_nil (d : Deduplicator) : deduplicate_papers d [] = none := rfl

/-- C10: calling `deduplicate_papers` on the empty multiset does not return
normally: `total_papers_processed` is set to 0 and the completion logging
divides `duplicates_found` by it, so the call raises `ZeroDivisionError`
(modelled as `none`) instead of returning an empty result. -/
theorem C10_empty_input_raises : ∀ d : Deduplicator,
    deduplicate_papers d [] = none := by
  intro d
  rfl

/-- C7: every record in the output of `deduplicate_papers` is one of the
input records, kept whole (it is equal, field for field, to an input
record), and the output size is at most the input size. -/
theorem C7_output_is_reduction : ∀ (d : Deduplicator)
    (ps out : List PaperMetadata) (st' : Deduplicator),
    deduplicate_papers d ps = some (out, st') →
    (∀ p ∈ out, p ∈ ps) ∧ out.length ≤ ps.length := by
  intro d ps out st' h
  obtain ⟨k1, k2, k3, k4, r1, r2, r3, _, _, _, _, _, _, _, _,
    l1, l2, l3, l4, hmem⟩ := deduplicate_papers_spec d ps out st' h
  exact ⟨hmem, by omega⟩

/-- Witness for C7 at the C1 scenario input. -/
theorem C7_witness :
    (∀ p ∈ [pubC1, otherC1], p ∈ [pubC1, ssC1, otherC1]) ∧
    ([pubC1, otherC1] : List PaperMetadata).length ≤
      ([pubC1, ssC1, otherC1] : List PaperMetadata).length :=
  C7_output_is_reduction mkDeduplicator [pubC1, ssC1, otherC1]
    [pubC1, otherC1]
    { title_similarity_threshold := 85/100, doi_priority := true,
      author_similarity_threshold := 7/10, total_papers_processed := 3,
      duplicates_found := 1, doi_matches := 1, title_matches := 0,
      author_title_matches := 0 }
    (by decide)

/-- C2 counterexample: `deduplicate` is not idempotent.  On
`[p1C2, p2C2, p3C2]` the title pass replaces `p1C2` by `p3C2` and breaks
out of the comparison loop, so the surviving pair `p2C2, p3C2` still has
title similarity 1; a second run removes `p3C2`, so the second output
differs from the first. -/
theorem C2_counterexample :
    deduplicate_papers mkDeduplicator [p1C2, p2C2, p3C2] =
      some ([p2C2, p3C2],
        { title_similarity_threshold := 85/100, doi_priority := true,
          author_similarity_threshold := 7/10, total_papers_processed := 3,
          duplicates_found := 1, doi_matches := 0, title_matches := 1,
          author_title_matches := 0 }) ∧
    (deduplicate_papers
      { title_similarity_threshold := 85/100, doi_priority := true,
        author_similarity_threshold := 7/10, total_papers_processed := 3,
        duplicates_found := 1, doi_matches := 0, title_matches := 1,
        author_title_matches := 0 } [p2C2, p3C2]).map Prod.fst =
      some [p2C2] ∧
    ([p2C2] : List PaperMetadata) ≠ [p2C2, p3C2] := by
  decide

/-- C2 amended: a second `deduplicate` run over the first run's output is
only a reduction — every surviving record was in the first output and the
size cannot grow — but it may remove further records, so exact idempotence
fails (see the counterexample). -/
theorem C2_second_run_only_removes : ∀ (st : Deduplicator)
    (ps out : List PaperMetadata) (st' : Deduplicator)
    (out2 : List PaperMetadata) (st'' : Deduplicator),
    deduplicate_papers st ps = some (out, st') →
    deduplicate_papers st' out = some (out2, st'') →
    (∀ p ∈ out2, p ∈ out) ∧ out2.length ≤ out.length := by
  intro st ps out st' out2 st'' _ h2
  obtain ⟨k1, k2, k3, k4, r1, r2, r3, _, _, _, _, _, _, _, _,
    l1, l2, l3, l4, hmem⟩ := deduplicate_papers_spec st' out out2 st'' h2
  exact ⟨hmem, by omega⟩

/-- Witness for C2's amended theorem on a singleton input. -/
theorem C2_witness :
    (∀ p ∈ [p1C2], p ∈ [p1C2]) ∧
    ([p1C2] : List PaperMetadata).length ≤
      ([p1C2] : List PaperMetadata).length :=
  C2_second_run_only_removes mkDeduplicator [p1C2] [p1C2]
    { title_similarity_threshold := 85/100, doi_priority := true,
      author_similarity_threshold := 7/10, total_papers_processed := 1,
      duplicates_found := 0, doi_matches := 0, title_matches := 0,
      author_title_matches := 0 }
    [p1C2]
    { title_similarity_threshold := 85/100, doi_priority := true,
      author_similarity_threshold := 7/10, total_papers_processed := 1,
      duplicates_found := 0, doi_matches := 0, title_matches := 0,
      author_title_matches := 0 }
    (by decide) (by decide)

/-- C1 counterexample: with the `pubmed` record first, `deduplicate`
returns 2 records but the survivor of the same-DOI pair is the `pubmed`
record, not the `semantic_scholar` one, even though the conflict cascade
prefers the latter (`should_keep_existing pubC1 ssC1 = false`): the DOI
pass keeps the first-seen record per DOI and never consults the cascade. -/
theorem C1_counterexample :
    (deduplicate_papers mkDeduplicator [pubC1, ssC1, otherC1]).map
      Prod.fst = some [pubC1, otherC1] ∧
    ¬ ssC1 ∈ [pubC1, otherC1] ∧
    should_keep_existing pubC1 ssC1 = false := by
  decide

/-- C1 amended: `deduplicate` returns exactly 2 records, and the survivor
of the same-DOI pair is the first-seen record of the pair in input order
(the identifier pass keeps the first record per normalized DOI), not the
conflict-cascade winner. -/
theorem C1_first_seen_doi_survives :
    (deduplicate_papers mkDeduplicator [pubC1, ssC1, otherC1]).map
      Prod.fst = some [pubC1, otherC1] ∧
    (deduplicate_papers mkDeduplicator [ssC1, pubC1, otherC1]).map
      Prod.fst = some [ssC1, otherC1] := by
  decide

/-- C3 counterexample: `eC3` has no year and `nC3` has one; DOI presence,
preprint status and citation count are tied; yet the cascade keeps the
existing record (because of the abstract tie-break), so a record with an
absent year does not lose to one with a year present. -/
theorem C3_counterexample :
    should_keep_existing eC3 nC3 = true ∧
    eC3.year = none ∧ nC3.year = some 2020 ∧
    truthyStr eC3.doi = truthyStr nC3.doi ∧
    isPreprintRecord eC3 = isPreprintRecord nC3 ∧
    orZero eC3.citation_count = orZero nC3.citation_count := by
  decide

/-- C3 amended: with the first three cascade priorities tied, the year
comparison applies only when both years are present (and nonzero) and
differ — then the more recent year wins; in every other case (either year
absent, or equal) the cascade proceeds to the abstract tie-break, so an
absent year does not lose to a present one. -/
theorem C3_year_comparison : ∀ existing pNew : PaperMetadata,
    truthyStr existing.doi = truthyStr pNew.doi →
    isPreprintRecord existing = isPreprintRecord pNew →
    orZero existing.citation_count = orZero pNew.citation_count →
    (truthyInt existing.year = true → truthyInt pNew.year = true →
      existing.year.getD 0 ≠ pNew.year.getD 0 →
      should_keep_existing existing pNew =
        decide (pNew.year.getD 0 < existing.year.getD 0)) ∧
    ((truthyInt existing.year = false ∨ truthyInt pNew.year = false ∨
        existing.year.getD 0 = pNew.year.getD 0) →
      should_keep_existing existing pNew =
        abstractTieBreak existing pNew) := by
  intro existing pNew h1 h2 h3
  constructor
  · intro hy1 hy2 hne
    simp [should_keep_existing, h1, h2, h3, hy1, hy2, hne]
  · intro hcase
    rcases hcase with hy | hy | hy <;>
      simp [should_keep_existing, h1, h2, h3, hy]

/-- Witness for C3's amended theorem: a later year wins when both are
present; the no-year pair falls through to the abstract tie-break. -/
theorem C3_witness :
    should_keep_existing
      { title := "alpha bravo", authors := [], abstract := "",
        year := some 2020 }
      { title := "charlie delta", authors := [], abstract := "",
        year := some 2019 } = decide ((2019 : Int) < 2020) :=
  (C3_year_comparison
    { title := "alpha bravo", authors := [], abstract := "",
      year := some 2020 }
    { title := "charlie delta", authors := [], abstract := "",
      year := some 2019 }
    (by decide) (by decide) (by decide)).1 (by decide) (by decide)
    (by decide)

/-- C6 counterexample: with `year_start = 1`, a record whose year is the
integer 0 — exactly one unit below the interval — is kept, because Python
truthiness treats year 0 like an absent year. -/
theorem C6_counterexample :
    ArxivCollector.filter_by_year year0Paper 1 5 = true ∧
    SemanticScholarCollector.filter_by_year year0Paper 1 5 = true ∧
    year0Paper.year = some 0 ∧ (0 : Int) = 1 - 1 := by
  decide

/-- C6 amended: the collectors' year filter never excludes a record with
an absent year, always excludes a record whose nonzero year is one unit
outside the closed interval, and keeps a record whose year lies inside;
a year equal to 0 is treated as absent (kept) by the truthiness test. -/
theorem C6_year_filter : ∀ (p : PaperMetadata) (ys ye : Int),
    (p.year = none → ArxivCollector.filter_by_year p ys ye = true ∧
      SemanticScholarCollector.filter_by_year p ys ye = true) ∧
    (∀ y : Int, p.year = some y → y ≠ 0 → (y = ys - 1 ∨ y = ye + 1) →
      ArxivCollector.filter_by_year p ys ye = false ∧
      SemanticScholarCollector.filter_by_year p ys ye = false) ∧
    (∀ y : Int, p.year = some y → ys ≤ y → y ≤ ye →
      ArxivCollector.filter_by_year p ys ye = true ∧
      SemanticScholarCollector.filter_by_year p ys ye = true) := by
  intro p ys ye
  refine ⟨?_, ?_, ?_⟩
  · intro hnone
    constructor <;>
      simp [ArxivCollector.filter_by_year,
        SemanticScholarCollector.filter_by_year, truthyInt, hnone]
  · intro y hy hy0 hout
    have harx : ArxivCollector.filter_by_year p ys ye = false := by
      rw [ArxivCollector.filter_by_year]
      rw [if_neg (by simp [truthyInt, hy, hy0])]
      rcases hout with h | h <;> subst h <;>
        simp [hy, decide_eq_false_iff_not]
    exact ⟨harx, harx⟩
  · intro y hy hlo hhi
    by_cases hy0 : y = 0
    · constructor <;>
        simp [ArxivCollector.filter_by_year,
          SemanticScholarCollector.filter_by_year, truthyInt, hy, hy0]
    · have harx : ArxivCollector.filter_by_year p ys ye = true := by
        rw [ArxivCollector.filter_by_year]
        rw [if_neg (by simp [truthyInt, hy, hy0])]
        simp only [hy, Option.getD_some, Bool.and_eq_true,
          decide_eq_true_eq]
        exact ⟨hlo, hhi⟩
      exact ⟨harx, harx⟩

/-- Witness for C6's amended theorem: a record with no year passes the
default 2010–2024 filter, and a 2025 record is excluded. -/
theorem C6_witness :
    (ArxivCollector.filter_by_year p1C2 2010 2024 = true ∧
      SemanticScholarCollector.filter_by_year p1C2 2010 2024 = true) ∧
    (ArxivCollector.filter_by_year
        { title := "alpha bravo", authors := [], abstract := "",
          year := some 2025 } 2010 2024 = false ∧
      SemanticScholarCollector.filter_by_year
        { title := "alpha bravo", authors := [], abstract := "",
          year := some 2025 } 2010 2024 = false) :=
  ⟨(C6_year_filter p1C2 2010 2024).1 rfl,
   (C6_year_filter
      { title := "alpha bravo", authors := [], abstract := "",
        year := some 2025 } 2010 2024).2.1 2025 rfl (by decide)
      (Or.inr (by decide))⟩

/-- C8: each invocation of the retrying request wrapper attempts the
operation at most 3 times; the first success is returned with the
attempted/succeeded counters incremented, and if all three attempts raise,
the third exception is re-raised with attempted/failed incremented by 3 —
counters only ever grow. -/
theorem C8_retry_semantics : ∀ {ε α : Type} (st : BaseCollector)
    (f : Nat → Except ε α),
    (∀ a, f 0 = Except.ok a →
      make_request_with_retry st f =
        ({ st with total_requests := st.total_requests + 1,
                   successful_requests := st.successful_requests + 1 },
         Except.ok a)) ∧
    (∀ e0 a, f 0 = Except.error e0 → f 1 = Except.ok a →
      make_request_with_retry st f =
        ({ st with total_requests := st.total_requests + 2,
                   successful_requests := st.successful_requests + 1,
                   failed_requests := st.failed_requests + 1 },
         Except.ok a)) ∧
    (∀ e0 e1 a, f 0 = Except.error e0 → f 1 = Except.error e1 →
      f 2 = Except.ok a →
      make_request_with_retry st f =
        ({ st with total_requests := st.total_requests + 3,
                   successful_requests := st.successful_requests + 1,
                   failed_requests := st.failed_requests + 2 },
         Except.ok a)) ∧
    (∀ e0 e1 e2, f 0 = Except.error e0 → f 1 = Except.error e1 →
      f 2 = Except.error e2 →
      make_request_with_retry st f =
        ({ st with total_requests := st.total_requests + 3,
                   failed_requests := st.failed_requests + 3 },
         Except.error e2)) := by
  intro ε α st f
  refine ⟨?_, ?_, ?_, ?_⟩
  · intro a h0
    simp [make_request_with_retry, retryCall, attemptOnce, h0]
  · intro e0 a h0 h1
    simp [make_request_with_retry, retryCall, attemptOnce, h0, h1,
      Nat.add_assoc]
  · intro e0 e1 a h0 h1 h2
    simp [make_request_with_retry, retryCall, attemptOnce, h0, h1, h2,
      Nat.add_assoc]
  · intro e0 e1 e2 h0 h1 h2
    simp [make_request_with_retry, retryCall, attemptOnce, h0, h1, h2,
      Nat.add_assoc]

/-- Witness for C8: an operation that always raises is attempted exactly
three times and the third exception is re-raised. -/
theorem C8_witness :
    make_request_with_retry ({} : BaseCollector)
      (fun _ => (Except.error "boom" : Except String Nat)) =
      ({ total_requests := 3, successful_requests := 0,
         failed_requests := 3 }, Except.error "boom") :=
  (C8_retry_semantics {} (fun _ => (Except.error "boom" : Except String Nat))
    ).2.2.2 "boom" "boom" "boom" rfl rfl rfl

/-- C4 counterexample: for two records whose titles are single stop words,
both normalized titles are empty, the computed similarity is 0 while the
maximum of the three fuzzywuzzy measures on those normalized titles is 1
( ≥ the 0.85 threshold), and the title pass keeps both records. -/
theorem C4_counterexample :
    normalize_title swA.title = "" ∧ normalize_title swB.title = "" ∧
    calculate_title_similarity "" "" = 0 ∧
    ((max (max (fuzz_ratio "" "") (token_sort_ratio "" ""))
      (token_set_ratio "" "") : ℤ) : ℚ) / 100 = 1 ∧
    (85/100 : ℚ) ≤ 1 ∧
    (remove_title_duplicates mkDeduplicator [swA, swB]).1 = [swA, swB] := by
  decide

/-- C4 amended: when both normalized titles are nonempty, the similarity
score is the maximum of the three fuzzywuzzy measures (character ratio,
token-sort, token-set) as a fraction of 100, and in the title pass two
records are resolved as the same paper (one survivor) precisely when that
score reaches the configured threshold — otherwise both are kept.  (For
empty normalized titles the score is defined as 0 and no merge happens.) -/
theorem C4_title_similarity_gate : ∀ (d : Deduplicator)
    (p q : PaperMetadata),
    normalize_title p.title ≠ "" → normalize_title q.title ≠ "" →
    (calculate_title_similarity (normalize_title q.title)
        (normalize_title p.title) =
      ((max (max (fuzz_ratio (normalize_title q.title)
            (normalize_title p.title))
          (token_sort_ratio (normalize_title q.title)
            (normalize_title p.title)))
          (token_set_ratio (normalize_title q.title)
            (normalize_title p.title)) : ℤ) : ℚ) / 100) ∧
    ((remove_title_duplicates d [p, q]).1.length = 1 ↔
      d.title_similarity_threshold ≤
        calculate_title_similarity (normalize_title q.title)
          (normalize_title p.title)) ∧
    ((remove_title_duplicates d [p, q]).1 = [p, q] ↔
      ¬ d.title_similarity_threshold ≤
        calculate_title_similarity (normalize_title q.title)
          (normalize_title p.title)) := by
  intro d p q hp hq
  have hA : calculate_title_similarity (normalize_title q.title)
      (normalize_title p.title) =
      ((max (max (fuzz_ratio (normalize_title q.title)
            (normalize_title p.title))
          (token_sort_ratio (normalize_title q.title)
            (normalize_title p.title)))
          (token_set_ratio (normalize_title q.title)
            (normalize_title p.title)) : ℤ) : ℚ) / 100 := by
    rw [calculate_title_similarity, if_neg (by simp [hp, hq])]
    rw [Int.cast_max, Int.cast_max]
    rw [max_div_div_right (by norm_num : (0:ℚ) ≤ 100),
      max_div_div_right (by norm_num : (0:ℚ) ≤ 100)]
  refine ⟨hA, ?_, ?_⟩ <;>
  · by_cases hhit : d.title_similarity_threshold ≤
        calculate_title_similarity (normalize_title q.title)
          (normalize_title p.title)
    · have hb : titleDupHit d q p = true := by
        simp [titleDupHit, hhit]
      by_cases hkeep : should_keep_existing p q = true
      · have hrun : remove_title_duplicates d [p, q] =
            ([p], bumpTitle d 1) := by
          simp [remove_title_duplicates, removeTitleAux, hb, hkeep,
            bumpTitle]
        simp [hrun, hhit]
      · have hrun : remove_title_duplicates d [p, q] =
            ([q], bumpTitle d 1) := by
          simp [remove_title_duplicates, removeTitleAux, hb, hkeep,
            bumpTitle]
        simp [hrun, hhit]
    · have hb : titleDupHit d q p = false := by
        simp [titleDupHit, hhit]
      have hrun : remove_title_duplicates d [p, q] = ([p, q], d) := by
        simp [remove_title_duplicates, removeTitleAux, hb]
      simp [hrun, hhit]

/-- Witness for C4's amended theorem on two dissimilar nonempty titles. -/
theorem C4_witness :
    (calculate_title_similarity (normalize_title ssC1.title)
        (normalize_title pubC1.title) =
      ((max (max (fuzz_ratio (normalize_title ssC1.title)
            (normalize_title pubC1.title))
          (token_sort_ratio (normalize_title ssC1.title)
            (normalize_title pubC1.title)))
          (token_set_ratio (normalize_title ssC1.title)
            (normalize_title pubC1.title)) : ℤ) : ℚ) / 100) ∧
    ((remove_title_duplicates mkDeduplicator [pubC1, ssC1]).1.length = 1 ↔
      mkDeduplicator.title_similarity_threshold ≤
        calculate_title_similarity (normalize_title ssC1.title)
          (normalize_title pubC1.title)) ∧
    ((remove_title_duplicates mkDeduplicator [pubC1, ssC1]).1 =
        [pubC1, ssC1] ↔
      ¬ mkDeduplicator.title_similarity_threshold ≤
        calculate_title_similarity (normalize_title ssC1.title)
          (normalize_title pubC1.title)) :=
  C4_title_similarity_gate mkDeduplicator pubC1 ssC1 (by decide) (by decide)

/-- C5: the author+title pass flags two records as the same paper exactly
when the author-Jaccard similarity reaches 0.7 and the title similarity
reaches 0.7, jointly; concretely, author similarity 0.72 with title
similarity 0.69 keeps both records, while 0.72 with 0.70 merges them. -/
theorem C5_joint_gating :
    (∀ p q : PaperMetadata,
      ((remove_author_title_duplicates mkDeduplicator [p, q]).1.length = 1
        ↔ ((7/10 : ℚ) ≤ calculate_author_similarity q.authors p.authors ∧
          (7/10 : ℚ) ≤ calculate_title_similarity
            (normalize_title q.title) (normalize_title p.title))) ∧
      ((remove_author_title_duplicates mkDeduplicator [p, q]).1 = [p, q]
        ↔ ¬ ((7/10 : ℚ) ≤ calculate_author_similarity q.authors p.authors ∧
          (7/10 : ℚ) ≤ calculate_title_similarity
            (normalize_title q.title) (normalize_title p.title)))) ∧
    (calculate_author_similarity atB69.authors atA69.authors = 72/100 ∧
      calculate_title_similarity (normalize_title atB69.title)
        (normalize_title atA69.title) = 69/100 ∧
      (remove_author_title_duplicates mkDeduplicator [atA69, atB69]).1 =
        [atA69, atB69]) ∧
    (calculate_author_similarity atB70.authors atA70.authors = 72/100 ∧
      calculate_title_similarity (normalize_title atB70.title)
        (normalize_title atA70.title) = 70/100 ∧
      (remove_author_title_duplicates mkDeduplicator
        [atA70, atB70]).1.length = 1) := by
  refine ⟨?_, by decide, by decide⟩
  intro p q
  by_cases hgate : (7/10 : ℚ) ≤
      calculate_author_similarity q.authors p.authors ∧
      (7/10 : ℚ) ≤ calculate_title_similarity
        (normalize_title q.title) (normalize_title p.title)
  · have hb : authorTitleDupHit mkDeduplicator q p = true := by
      simp [authorTitleDupHit, hgate.1, hgate.2, mkDeduplicator]
    by_cases hkeep : should_keep_existing p q = true
    · have hrun : remove_author_title_duplicates mkDeduplicator [p, q] =
          ([p], bumpAT mkDeduplicator 1) := by
        simp [remove_author_title_duplicates, removeAuthorTitleAux, hb,
          hkeep, bumpAT]
      constructor <;> simp [hrun, hgate]
    · have hrun : remove_author_title_duplicates mkDeduplicator [p, q] =
          ([q], bumpAT mkDeduplicator 1) := by
        simp [remove_author_title_duplicates, removeAuthorTitleAux, hb,
          hkeep, bumpAT]
      constructor <;> simp [hrun, hgate]
  · have hb : authorTitleDupHit mkDeduplicator q p = false := by
      rcases Decidable.not_and_iff_or_not.mp hgate with hg | hg <;>
        simp [authorTitleDupHit, hg, mkDeduplicator]
    have hrun : remove_author_title_duplicates mkDeduplicator [p, q] =
        ([p, q], mkDeduplicator) := by
      simp [remove_author_title_duplicates, removeAuthorTitleAux, hb]
    constructor <;> simp [hrun, hgate]

/-- C9 counterexample: on a second `deduplicate` call on the same engine
the cumulative `duplicates_found`/`doi_matches` counters and the reset
`total_papers_processed` give a duplicate rate of 1 for a call that
removed nothing (the claim predicts 0), and `doi_matches` still reports
the first call's match. -/
theorem C9_counterexample :
    deduplicate_papers mkDeduplicator [aC9, a'C9] =
      some ([aC9],
        { title_similarity_threshold := 85/100, doi_priority := true,
          author_similarity_threshold := 7/10, total_papers_processed := 2,
          duplicates_found := 1, doi_matches := 1, title_matches := 0,
          author_title_matches := 0 }) ∧
    deduplicate_papers
        { title_similarity_threshold := 85/100, doi_priority := true,
          author_similarity_threshold := 7/10, total_papers_processed := 2,
          duplicates_found := 1, doi_matches := 1, title_matches := 0,
          author_title_matches := 0 } [bC9] =
      some ([bC9],
        { title_similarity_threshold := 85/100, doi_priority := true,
          author_similarity_threshold := 7/10, total_papers_processed := 1,
          duplicates_found := 1, doi_matches := 1, title_matches := 0,
          author_title_matches := 0 }) ∧
    (get_deduplication_stats
        { title_similarity_threshold := 85/100, doi_priority := true,
          author_similarity_threshold := 7/10, total_papers_processed := 1,
          duplicates_found := 1, doi_matches := 1, title_matches := 0,
          author_title_matches := 0 }).duplicate_rate = 1 ∧
    (get_deduplication_stats
        { title_similarity_threshold := 85/100, doi_priority := true,
          author_similarity_threshold := 7/10, total_papers_processed := 1,
          duplicates_found := 1, doi_matches := 1, title_matches := 0,
          author_title_matches := 0 }).doi_matches = 1 ∧
    ¬ (get_deduplication_stats
        { title_similarity_threshold := 85/100, doi_priority := true,
          author_similarity_threshold := 7/10, total_papers_processed := 1,
          duplicates_found := 1, doi_matches := 1, title_matches := 0,
          author_title_matches := 0 }).duplicate_rate = 0 := by
  decide

/-- C9 amended: on the first `deduplicate` call of a freshly constructed
engine, the exposed statistics are as the claim describes: each per-pass
counter equals that pass's removals in this call, `duplicates_found`
equals the call's total removals, and the duplicate rate equals removals
divided by the call's input size, lying between 0 and 1.  (On later calls
the counters keep accumulating while `total_papers_processed` is reset,
so the rate can exceed 1 — see the counterexample.) -/
theorem C9_first_call_stats : ∀ (ps out : List PaperMetadata)
    (st' : Deduplicator),
    deduplicate_papers mkDeduplicator ps = some (out, st') →
    ∃ r1 r2 r3 : List PaperMetadata × Deduplicator,
      remove_doi_duplicates
        { mkDeduplicator with total_papers_processed := ps.length } ps =
        r1 ∧
      remove_title_duplicates r1.2 r1.1 = r2 ∧
      remove_author_title_duplicates r2.2 r2.1 = r3 ∧
      handle_preprint_duplicates r3.2 r3.1 = (out, st') ∧
      st'.total_papers_processed = ps.length ∧
      st'.doi_matches = ps.length - r1.1.length ∧
      st'.title_matches = r1.1.length - r2.1.length ∧
      st'.author_title_matches = r2.1.length - r3.1.length ∧
      st'.duplicates_found = ps.length - out.length ∧
      (get_deduplication_stats st').duplicate_rate =
        ((ps.length - out.length : ℕ) : ℚ) / (ps.length : ℚ) ∧
      0 ≤ (get_deduplication_stats st').duplicate_rate ∧
      (get_deduplication_stats st').duplicate_rate ≤ 1 := by
  intro ps out st' h
  have hne : ps ≠ [] := by
    intro hnil
    rw [hnil, dedup_nil] at h
    exact Option.noConfusion h
  have hpos : 0 < ps.length := List.length_pos.mpr hne
  obtain ⟨k1, k2, k3, k4, r1, r2, r3, e1, e2, e3, e4, b1, b2, b3, b4,
    l1, l2, l3, l4, hmem⟩ :=
    deduplicate_papers_spec mkDeduplicator ps out st' h
  have htot : st'.total_papers_processed = ps.length := by
    rw [b4, b3, b2, b1]
    simp [bumpPre, bumpAT, bumpTitle, bumpDoi]
  have hdoi : st'.doi_matches = k1 := by
    rw [b4, b3, b2, b1]
    simp [bumpPre, bumpAT, bumpTitle, bumpDoi, mkDeduplicator]
  have htitle : st'.title_matches = k2 := by
    rw [b4, b3, b2, b1]
    simp [bumpPre, bumpAT, bumpTitle, bumpDoi, mkDeduplicator]
  have hat : st'.author_title_matches = k3 := by
    rw [b4, b3, b2, b1]
    simp [bumpPre, bumpAT, bumpTitle, bumpDoi, mkDeduplicator]
  have hdf : st'.duplicates_found = k1 + k2 + k3 + k4 := by
    rw [b4, b3, b2, b1]
    simp [bumpPre, bumpAT, bumpTitle, bumpDoi, mkDeduplicator,
      Nat.add_assoc]
  have hdf' : st'.duplicates_found = ps.length - out.length := by omega
  have hrate : (get_deduplication_stats st').duplicate_rate =
      ((ps.length - out.length : ℕ) : ℚ) / (ps.length : ℚ) := by
    simp only [get_deduplication_stats]
    rw [htot, hdf', if_pos hpos]
  refine ⟨r1, r2, r3, e1, e2, e3, e4, htot, by omega, by omega, by omega,
    hdf', hrate, ?_, ?_⟩
  · rw [hrate]
    positivity
  · rw [hrate]
    apply div_le_one_of_le₀
    · exact_mod_cast Nat.sub_le _ _
    · positivity

/-- Witness for C9's amended theorem: the first call on the two-record
same-DOI input reports one DOI match, one duplicate, and rate 1/2. -/
theorem C9_witness :
    ∃ r1 r2 r3 : List PaperMetadata × Deduplicator,
      remove_doi_duplicates
        { mkDeduplicator with
          total_papers_processed := [aC9, a'C9].length } [aC9, a'C9] =
        r1 ∧
      remove_title_duplicates r1.2 r1.1 = r2 ∧
      remove_author_title_duplicates r2.2 r2.1 = r3 ∧
      handle_preprint_duplicates r3.2 r3.1 =
        ([aC9],
          { title_similarity_threshold := 85/100, doi_priority := true,
            author_similarity_threshold := 7/10,
            total_papers_processed := 2, duplicates_found := 1,
            doi_matches := 1, title_matches := 0,
            author_title_matches := 0 }) ∧
      ({ title_similarity_threshold := 85/100, doi_priority := true,
         author_similarity_threshold := 7/10, total_papers_processed := 2,
         duplicates_found := 1, doi_matches := 1, title_matches := 0,
         author_title_matches := 0 } :
         Deduplicator).total_papers_processed = [aC9, a'C9].length ∧
      ({ title_similarity_threshold := 85/100, doi_priority := true,
         author_similarity_threshold := 7/10, total_papers_processed := 2,
         duplicates_found := 1, doi_matches := 1, title_matches := 0,
         author_title_matches := 0 } :
         Deduplicator).doi_matches = [aC9, a'C9].length - r1.1.length ∧
      ({ title_similarity_threshold := 85/100, doi_priority := true,
         author_similarity_threshold := 7/10, total_papers_processed := 2,
         duplicates_found := 1, doi_matches := 1, title_matches := 0,
         author_title_matches := 0 } :
         Deduplicator).title_matches = r1.1.length - r2.1.length ∧
      ({ title_similarity_threshold := 85/100, doi_priority := true,
         author_similarity_threshold := 7/10, total_papers_processed := 2,
         duplicates_found := 1, doi_matches := 1, title_matches := 0,
         author_title_matches := 0 } :
         Deduplicator).author_title_matches =
        r2.1.length - r3.1.length ∧
      ({ title_similarity_threshold := 85/100, doi_priority := true,
         author_similarity_threshold := 7/10, total_papers_processed := 2,
         duplicates_found := 1, doi_matches := 1, title_matches := 0,
         author_title_matches := 0 } :
         Deduplicator).duplicates_found =
        [aC9, a'C9].length - [aC9].length ∧
      (get_deduplication_stats
        { title_similarity_threshold := 85/100, doi_priority := true,
          author_similarity_threshold := 7/10, total_papers_processed := 2,
          duplicates_found := 1, doi_matches := 1, title_matches := 0,
          author_title_matches := 0 }).duplicate_rate =
        (([aC9, a'C9].length - [aC9].length : ℕ) : ℚ) /
          ([aC9, a'C9].length : ℚ) ∧
      0 ≤ (get_deduplication_stats
        { title_similarity_threshold := 85/100, doi_priority := true,
          author_similarity_threshold := 7/10, total_papers_processed := 2,
          duplicates_found := 1, doi_matches := 1, title_matches := 0,
          author_title_matches := 0 }).duplicate_rate ∧
      (get_deduplication_stats
        { title_similarity_threshold := 85/100, doi_priority := true,
          author_similarity_threshold := 7/10, total_papers_processed := 2,
          duplicates_found := 1, doi_matches := 1, title_matches := 0,
          author_title_matches := 0 }).duplicate_rate ≤ 1 :=
  C9_first_call_stats [aC9, a'C9] [aC9]
    { title_similarity_threshold := 85/100, doi_priority := true,
      author_similarity_threshold := 7/10, total_papers_processed := 2,
      duplicates_found := 1, doi_matches := 1, title_matches := 0,
      author_title_matches := 0 } (by decide)

end Maromba
